import Mathlib

/-!
Verification of the WhatsApp group-chat analyzer (`script.py`).

The Python program is shallowly embedded below: strings are Lean `String`s
(code points, matching Python `str` semantics for `len` and slicing on the
inputs considered), machine-free arithmetic is `Nat`, fallible operations
return `Option`.  The definitions mirror the source top to bottom:
string helpers used by the script, the timestamp parser
(`parse_timestamp`), the calendar formatter (`format_jalali_date`), the
two regular expressions (`RE_CREATED`, `RE_GROUP_RENAME`), the main loop
(`processLine` / `runAnalyzer`) and the report fragments the theorems
talk about.
-/

set_option autoImplicit false

namespace WGA

/-! ## Python string primitives used by the script -/

/-- Python `\s` / `str.strip()` whitespace characters (ASCII range). -/
def isPySpace (c : Char) : Bool :=
  c = ' ' || c = '\t' || c = '\n' || c = '\r' || c = '\x0b' || c = '\x0c'

/-- Models Python `str.strip()` (no arguments): drop leading and trailing
whitespace. -/
def pyStrip (s : String) : String :=
  (((s.data.dropWhile isPySpace).reverse.dropWhile isPySpace).reverse).asString

/-- Models Python `str.lower()` (ASCII letters; the tags compared in the
script are ASCII). -/
def pyLower (s : String) : String :=
  (s.data.map Char.toLower).asString

/-- Helper for `pySplit1`: scan for the first occurrence of `sep`. -/
def pySplit1Go (sep : List Char) : List Char → List Char → Option (List Char × List Char)
  | accRev, rest =>
    if sep.isPrefixOf rest then some (accRev.reverse, rest.drop sep.length)
    else
      match rest with
      | [] => none
      | c :: rs => pySplit1Go sep (c :: accRev) rs

/-- Models the combination of Python `sep in s` and `s.split(sep, 1)`:
`none` when the separator does not occur, otherwise the pieces around the
first occurrence. -/
def pySplit1 (sep s : String) : Option (String × String) :=
  match pySplit1Go sep.data [] s.data with
  | none => none
  | some (a, b) => some (a.asString, b.asString)

/-- Models Python `needle in hay` on strings: raw substring containment
(some split around an occurrence of `needle` exists). -/
def pyIn (needle hay : String) : Bool :=
  (pySplit1Go needle.data [] hay.data).isSome

/-- Helper for `pyWords`: accumulate the current word (reversed) and cut
at whitespace runs. -/
def pyWordsGo : List Char → List Char → List String
  | acc, [] => if acc.isEmpty then [] else [acc.reverse.asString]
  | acc, c :: rest =>
    if isPySpace c then
      if acc.isEmpty then pyWordsGo [] rest
      else acc.reverse.asString :: pyWordsGo [] rest
    else pyWordsGo (c :: acc) rest

/-- Models Python `str.split()` (no arguments): split on whitespace runs,
dropping empty pieces.  Only its length is used by the script
(`len(message.split())`). -/
def pyWords (s : String) : List String :=
  pyWordsGo [] s.data

/-! ## The timestamp parser — a faithful model of
`datetime.strptime` restricted to the four formats of the script.

CPython's `_strptime` compiles each directive to a regular expression:
`%m`, `%I` → `1[0-2]|0[1-9]|[1-9]`, `%d` → `3[01]|[12]\d|0[1-9]|[1-9]`,
`%H` → `2[0-3]|[0-1]\d|\d`, `%M` → `[0-5]\d|\d`, `%y` → `\d\d`,
`%p` → `AM|PM` (case-insensitive), and a whitespace in the format string
matches one or more whitespace characters.  After the scan the
`datetime` constructor validates the ranges (month 1–12, day against the
month length, hour 0–23, minute 0–59); a failure raises `ValueError`,
which `parse_timestamp` turns into trying the next format. -/

/-- A parsed naive timestamp (the script never uses seconds). -/
structure PDateTime where
  year : Nat
  month : Nat
  day : Nat
  hour : Nat
  minute : Nat
deriving DecidableEq, Repr

inductive DateOrder | mdy | dmy
deriving DecidableEq, Repr

inductive Clock | h12 | h24
deriving DecidableEq, Repr

inductive Meridiem | am | pm
deriving DecidableEq, Repr

def digitVal (c : Char) : Nat := c.toNat - 48

/-- Field regex `1[0-2]|0[1-9]|[1-9]` (used for `%m` and `%I`). -/
def parseOneToTwelve : List Char → Option (Nat × List Char)
  | [] => none
  | c1 :: rest1 =>
    match rest1 with
    | c2 :: rest2 =>
      if c1 = '1' && '0' ≤ c2 && c2 ≤ '2' then some (10 + digitVal c2, rest2)
      else if c1 = '0' && '1' ≤ c2 && c2 ≤ '9' then some (digitVal c2, rest2)
      else if '1' ≤ c1 && c1 ≤ '9' then some (digitVal c1, rest1)
      else none
    | [] =>
      if '1' ≤ c1 && c1 ≤ '9' then some (digitVal c1, []) else none

/-- Field regex `3[01]|[12]\d|0[1-9]|[1-9]` (used for `%d`). -/
def parseDay : List Char → Option (Nat × List Char)
  | [] => none
  | c1 :: rest1 =>
    match rest1 with
    | c2 :: rest2 =>
      if c1 = '3' && ('0' ≤ c2 && c2 ≤ '1') then some (30 + digitVal c2, rest2)
      else if ('1' ≤ c1 && c1 ≤ '2') && c2.isDigit then some (10 * digitVal c1 + digitVal c2, rest2)
      else if c1 = '0' && '1' ≤ c2 && c2 ≤ '9' then some (digitVal c2, rest2)
      else if '1' ≤ c1 && c1 ≤ '9' then some (digitVal c1, rest1)
      else none
    | [] =>
      if '1' ≤ c1 && c1 ≤ '9' then some (digitVal c1, []) else none

/-- Field regex `2[0-3]|[0-1]\d|\d` (used for `%H`). -/
def parseHour24 : List Char → Option (Nat × List Char)
  | [] => none
  | c1 :: rest1 =>
    match rest1 with
    | c2 :: rest2 =>
      if c1 = '2' && ('0' ≤ c2 && c2 ≤ '3') then some (20 + digitVal c2, rest2)
      else if ('0' ≤ c1 && c1 ≤ '1') && c2.isDigit then some (10 * digitVal c1 + digitVal c2, rest2)
      else if c1.isDigit then some (digitVal c1, rest1)
      else none
    | [] =>
      if c1.isDigit then some (digitVal c1, []) else none

/-- Field regex `[0-5]\d|\d` (used for `%M`). -/
def parseMinute : List Char → Option (Nat × List Char)
  | [] => none
  | c1 :: rest1 =>
    match rest1 with
    | c2 :: rest2 =>
      if ('0' ≤ c1 && c1 ≤ '5') && c2.isDigit then some (10 * digitVal c1 + digitVal c2, rest2)
      else if c1.isDigit then some (digitVal c1, rest1)
      else none
    | [] =>
      if c1.isDigit then some (digitVal c1, []) else none

/-- Field regex `\d\d` (used for `%y`). -/
def parseYear2 : List Char → Option (Nat × List Char)
  | c1 :: c2 :: rest =>
    if c1.isDigit && c2.isDigit then some (10 * digitVal c1 + digitVal c2, rest) else none
  | _ => none

/-- Meridiem field: `AM|PM`, case-insensitive (`%p`). -/
def parseMeridiem : List Char → Option (Meridiem × List Char)
  | a :: b :: rest =>
    if (a = 'A' || a = 'a') && (b = 'M' || b = 'm') then some (Meridiem.am, rest)
    else if (a = 'P' || a = 'p') && (b = 'M' || b = 'm') then some (Meridiem.pm, rest)
    else none
  | _ => none

/-- A literal character of the format string. -/
def expectChar (c : Char) : List Char → Option (List Char)
  | d :: rest => if d = c then some rest else none
  | [] => none

/-- A whitespace in the format string: `\s+` (one or more). -/
def skipWs1 : List Char → Option (List Char)
  | c :: rest => if isPySpace c then some (rest.dropWhile isPySpace) else none
  | [] => none

/-- The raw fields scanned from a timestamp string. -/
structure ScanOut where
  f1 : Nat
  f2 : Nat
  y2 : Nat
  hh : Nat
  mm : Nat
  mer : Option Meridiem
deriving DecidableEq, Repr

/-- Scan phase of `strptime` for the shape shared by the four formats:
`F1/F2/%y, HH:MM` followed, for the 12-hour formats, by ` %p`; the whole
input must be consumed (otherwise CPython raises «unconverted data
remains»). -/
def scanFields (ord : DateOrder) (clock : Clock) (cs : List Char) : Option ScanOut :=
  (match ord with | DateOrder.mdy => parseOneToTwelve cs | DateOrder.dmy => parseDay cs).bind fun p1 =>
  (expectChar '/' p1.2).bind fun cs2 =>
  (match ord with | DateOrder.mdy => parseDay cs2 | DateOrder.dmy => parseOneToTwelve cs2).bind fun p2 =>
  (expectChar '/' p2.2).bind fun cs3 =>
  (parseYear2 cs3).bind fun py =>
  (expectChar ',' py.2).bind fun cs4 =>
  (skipWs1 cs4).bind fun cs5 =>
  (match clock with | Clock.h12 => parseOneToTwelve cs5 | Clock.h24 => parseHour24 cs5).bind fun ph =>
  (expectChar ':' ph.2).bind fun cs6 =>
  (parseMinute cs6).bind fun pmin =>
  match clock with
  | Clock.h24 =>
    if pmin.2 = [] then some ⟨p1.1, p2.1, py.1, ph.1, pmin.1, none⟩ else none
  | Clock.h12 =>
    (skipWs1 pmin.2).bind fun cs7 =>
    (parseMeridiem cs7).bind fun pmer =>
    if pmer.2 = [] then some ⟨p1.1, p2.1, py.1, ph.1, pmin.1, some pmer.1⟩ else none

/-- Gregorian leap year (Python `calendar`/`datetime` rule). -/
def isLeapYear (y : Nat) : Bool :=
  y % 4 = 0 && (y % 100 ≠ 0 || y % 400 = 0)

/-- Length of a Gregorian month (`datetime` validation). -/
def daysInMonth (y m : Nat) : Nat :=
  if m = 2 then (if isLeapYear y then 29 else 28)
  else if m = 4 || m = 6 || m = 9 || m = 11 then 30
  else 31

/-- The `datetime` constructor's range validation (a failure is a
`ValueError`, i.e. `none`). -/
def mkValidDT (year month day hour minute : Nat) : Option PDateTime :=
  if 1 ≤ month && month ≤ 12 && 1 ≤ day && day ≤ daysInMonth year month
      && hour ≤ 23 && minute ≤ 59 then
    some ⟨year, month, day, hour, minute⟩
  else none

/-- Build phase of `strptime`: `%y` pivot (`00‑68` → 2000s, `69‑99` →
1900s), meridiem-to-24h conversion, and the `datetime` constructor's
validation. -/
def buildDT (ord : DateOrder) (f : ScanOut) : Option PDateTime :=
  let year := if f.y2 ≤ 68 then 2000 + f.y2 else 1900 + f.y2
  let month := match ord with | DateOrder.mdy => f.f1 | DateOrder.dmy => f.f2
  let day := match ord with | DateOrder.mdy => f.f2 | DateOrder.dmy => f.f1
  let hour := match f.mer with
    | none => f.hh
    | some Meridiem.am => if f.hh = 12 then 0 else f.hh
    | some Meridiem.pm => if f.hh = 12 then 12 else f.hh + 12
  mkValidDT year month day hour f.mm

/-- Models `datetime.strptime(raw_ts.strip(), fmt)` for one of the four formats,
as `Option` (a `ValueError` is `none`). -/
def strptime (ord : DateOrder) (clock : Clock) (raw_ts : String) : Option PDateTime :=
  match scanFields ord clock (pyStrip raw_ts).data with
  | none => none
  | some f => buildDT ord f

/-- The fixed format list of `parse_timestamp`, in source order:
`%m/%d/%y, %I:%M %p`, `%d/%m/%y, %I:%M %p`, `%m/%d/%y, %H:%M`,
`%d/%m/%y, %H:%M`. -/
def formats : List (DateOrder × Clock) :=
  [(DateOrder.mdy, Clock.h12), (DateOrder.dmy, Clock.h12),
   (DateOrder.mdy, Clock.h24), (DateOrder.dmy, Clock.h24)]

/-- The script's `parse_timestamp`: try each format in order, return the
first successful parse, `None` if all fail. -/
def parse_timestamp (raw_ts : String) : Option PDateTime :=
  formats.findSome? (fun fmt => strptime fmt.1 fmt.2 raw_ts)

/-! ## Calendar: weekday, Jalali conversion, `format_jalali_date` -/

/-- Days in the proleptic Gregorian calendar before January 1 of year `y`. -/
def daysBeforeYear (y : Nat) : Nat :=
  let n := y - 1
  n * 365 + n / 4 - n / 100 + n / 400

/-- Days in year `y` before the first of month `m`. -/
def daysBeforeMonth (y m : Nat) : Nat :=
  (List.range (m - 1)).foldl (fun acc i => acc + daysInMonth y (i + 1)) 0

/-- Rata-die day number (0001‑01‑01 is day 1, a Monday). -/
def rataDie (y m d : Nat) : Nat :=
  daysBeforeYear y + daysBeforeMonth y m + d

/-- Python `datetime.weekday()`: Monday = 0 … Sunday = 6. -/
def pyWeekday (dt : PDateTime) : Nat :=
  (rataDie dt.year dt.month dt.day + 6) % 7

/-- A Jalali (solar‑Hijri) calendar date. -/
structure JDate where
  jyear : Nat
  jmonth : Nat
  jday : Nat
deriving DecidableEq, Repr

/-- Day-of-year normalisation of the Jalali algorithm (the two sequential
`days %= …` steps plus the long-year correction). -/
def jDayNorm (days : Nat) : Nat :=
  let days2 := days % 12053 % 1461
  if days2 > 365 then (days2 - 1) % 365 else days2

/-- Month/day extraction from the normalised day-of-year (the final step
of the Jalali algorithm): the first six months have 31 days, the rest
30. -/
def jSplitMonth (d3 : Nat) : Nat × Nat :=
  if d3 < 186 then (1 + d3 / 31, 1 + d3 % 31)
  else (7 + (d3 - 186) / 30, 1 + (d3 - 186) % 30)

/-- Modelled from the spec: the solar‑Hijri (Jalali) converter supplied by
the optional `jdatetime` dependency (`jdatetime.date.fromgregorian`),
which is not part of this repository.  This is the standard
Gregorian→Jalali algorithm that library implements, written for the
year range the timestamp parser can produce (Gregorian years 1969‑2068,
where all intermediate values stay positive). -/
def g2j (dt : PDateTime) : JDate :=
  let gdm : List Nat := [0, 31, 59, 90, 120, 151, 181, 212, 243, 273, 304, 334]
  let jy0 : Nat := if dt.year > 1600 then 979 else 0
  let gy : Nat := if dt.year > 1600 then dt.year - 1600 else dt.year - 621
  let gy2 : Nat := if dt.month > 2 then gy + 1 else gy
  let days : Nat :=
    365 * gy + (gy2 + 3) / 4 - (gy2 + 99) / 100 + (gy2 + 399) / 400 - 80
      + dt.day + gdm.getD (dt.month - 1) 0
  let days1 : Nat := days % 12053
  let days2 : Nat := days1 % 1461
  let jy : Nat := jy0 + 33 * (days / 12053) + 4 * (days1 / 1461)
      + (if days2 > 365 then (days2 - 1) / 365 else 0)
  let md := jSplitMonth (jDayNorm days)
  ⟨jy, md.1, md.2⟩

/-- Modelled from the spec: `jdatetime.date.weekday()`, the converter's
Saturday‑first weekday index (Saturday = 0 … Friday = 6) of the very same
day, i.e. the Gregorian weekday shifted into the Saturday‑first
convention. -/
def jweekday (dt : PDateTime) : Nat :=
  (pyWeekday dt + 2) % 7

/-- Zero-padded two-digit rendering (`%m`, `%d`, `%02d`). -/
def pad2 (n : Nat) : String :=
  if n < 10 then "0" ++ toString n else toString n

/-- Rendering `strftime("%Y/%m/%d")` on a Gregorian date. -/
def gregLabel (dt : PDateTime) : String :=
  toString dt.year ++ "/" ++ pad2 dt.month ++ "/" ++ pad2 dt.day

/-- Rendering `strftime("%Y/%m/%d")` on a Jalali date. -/
def jalaliLabel (jd : JDate) : String :=
  toString jd.jyear ++ "/" ++ pad2 jd.jmonth ++ "/" ++ pad2 jd.jday

/-- Whether the optional `jdatetime` dependency is available: the script's
two calendar modes. -/
inductive CalMode | jalali | greg
deriving DecidableEq, Repr

/-- The script's `format_jalali_date`: display string, weekday index and
month number.  With `jdatetime` missing (mode `greg`) the Monday‑first
weekday is remapped by `(weekday + 2) % 7` to the Saturday‑first
convention; with `jdatetime` present the converter's date and weekday are
used. -/
def format_jalali_date (mode : CalMode) (dt : PDateTime) : String × Nat × Nat :=
  match mode with
  | CalMode.greg => (gregLabel dt, (pyWeekday dt + 2) % 7, dt.month)
  | CalMode.jalali =>
    let jd := g2j dt
    (jalaliLabel jd, jweekday dt, jd.jmonth)

/-! ## The two regular expressions

`RE_CREATED  = r'(.+?) created (?:group|this group) "?(.*?)"?$'` (IGNORECASE),
matched with `.match` (anchored at the start) against the payload, and
`RE_GROUP_RENAME = r'^(.*?) - (.+?) changed the group name from "(.+?)" to "(.+?)"'`
(IGNORECASE), matched against the whole raw line.  Lazy groups with
backtracking are a depth-first search preferring the shortest group, which
`lazySplitGo` implements: it calls the continuation at each admissible
split point from left to right and keeps the first success. -/

/-- Case-insensitive character comparison (`re.I` on ASCII letters). -/
def ciEqChar (a b : Char) : Bool := a.toLower = b.toLower

/-- Case-insensitive prefix test for a literal regex fragment. -/
def ciPrefixOf : List Char → List Char → Bool
  | [], _ => true
  | _ :: _, [] => false
  | a :: ps, b :: cs => ciEqChar a b && ciPrefixOf ps cs

/-- Lazy group followed by a literal: try every split point left to right
(group of at least `minLen` characters, then the literal `sep`
case-insensitively); at each admissible point run the continuation `k` on
the group and the remainder after `sep`; the first success wins, failure
of `k` backtracks to a longer group — exactly the search a lazy
quantifier performs. -/
def lazySplitGo {α : Type} (minLen : Nat) (sep : List Char)
    (k : List Char → List Char → Option α) : List Char → List Char → Option α
  | accRev, rest =>
    let attempt : Option α :=
      if minLen ≤ accRev.length && ciPrefixOf sep rest then
        k accRev.reverse (rest.drop sep.length)
      else none
    match attempt with
    | some r => some r
    | none =>
      match rest with
      | [] => none
      | c :: rs => lazySplitGo minLen sep k (c :: accRev) rs

/-- Models `RE_CREATED.match(content)`: creator (group 1) and raw group name
(group 2).  After `(.+?) created ` the alternation `(?:group|this group)`
plus the following space is matched; then `"?(.*?)"?$` strips one
optional leading and trailing quote — the trailing `(.*?)"?$` always
succeeds, taking everything up to a final quote if one is present. -/
def re_created (content : String) : Option (String × String) :=
  lazySplitGo 1 (" created ".data)
    (fun g1 r =>
      let finish : List Char → Option (String × String) := fun r2 =>
        let r3 := if r2.head? = some '"' then r2.drop 1 else r2
        let nm := if r3.getLast? = some '"' then r3.dropLast else r3
        some (g1.asString, nm.asString)
      if ciPrefixOf ("group ".data) r then finish (r.drop 6)
      else if ciPrefixOf ("this group ".data) r then finish (r.drop 11)
      else none)
    [] content.data

/-- Models `RE_GROUP_RENAME.match(raw)`: timestamp part, changer, old and new
name (trailing characters after the last quote are allowed, the pattern
is unanchored at the end). -/
def re_group_rename (raw : String) : Option (String × String × String × String) :=
  lazySplitGo 0 (" - ".data)
    (fun g1 r1 =>
      lazySplitGo 1 (" changed the group name from \"".data)
        (fun g2 r2 =>
          lazySplitGo 1 ("\" to \"".data)
            (fun g3 r3 =>
              lazySplitGo 1 ("\"".data)
                (fun g4 _ => some (g1.asString, g2.asString, g3.asString, g4.asString))
                [] r3)
            [] r2)
        [] r1)
    [] raw.data

/-! ## Data structures of the script -/

def MEDIA_TAG : String := "<Media omitted>"
def DELETED_TAG : String := "This message was deleted"

/-- Per-user record of `user_stats` (the `defaultdict` value), fields in
source order. -/
structure UserRec where
  messages : Nat
  media : Nat
  deleted : Nat
  bad_word : Nat
  char_sum : Nat
  word_sum : Nat
  first_ts : Option PDateTime
  last_ts : Option PDateTime
deriving DecidableEq, Repr

/-- The `defaultdict` default record. -/
def initRec : UserRec := ⟨0, 0, 0, 0, 0, 0, none, none⟩

/-- The `group_info` dictionary. -/
structure GroupInfo where
  created_ts : Option String
  created_by : Option String
  created_name : Option String
deriving DecidableEq, Repr

/-- Whole aggregator state of the main loop.  The three histograms are
`Counter`s, modelled as total functions with default 0; the per-day
counters keep Python-dict insertion order as association lists.  (The
global word-frequency and emoji counters of the script are not modelled:
no analysed property mentions them.) -/
structure AState where
  user_stats : List (String × UserRec)
  hour_counts : Nat → Nat
  weekday_counts : Nat → Nat
  month_counts : Nat → Nat
  messages_per_day : List (String × Nat)
  media_per_day : List (String × Nat)
  group_info : GroupInfo
  group_renames : List (String × String × String × String)

/-- The state before the main loop. -/
def initState : AState :=
  ⟨[], fun _ => 0, fun _ => 0, fun _ => 0, [], [], ⟨none, none, none⟩, []⟩

/-- Models `Counter[k] += 1` on a function-modelled counter. -/
def bumpN (f : Nat → Nat) (k : Nat) : Nat → Nat :=
  fun i => if i = k then f i + 1 else f i

/-- Models `Counter[k] += 1` / `defaultdict(int)[k] += 1` on an insertion-ordered
association list. -/
def bumpL : List (String × Nat) → String → List (String × Nat)
  | [], k => [(k, 1)]
  | (k', v) :: rest, k =>
    if k' = k then (k', v + 1) :: rest else (k', v) :: bumpL rest k

/-- Dictionary lookup in `user_stats`. -/
def lookupU : List (String × UserRec) → String → Option UserRec
  | [], _ => none
  | (k, v) :: rest, u => if k = u then some v else lookupU rest u

/-- Dictionary store in `user_stats`: replace in place, or append a new
key at the end (Python-dict insertion order). -/
def insertU : List (String × UserRec) → String → UserRec → List (String × UserRec)
  | [], u, r => [(u, r)]
  | (k, v) :: rest, u, r =>
    if k = u then (k, r) :: rest else (k, v) :: insertU rest u r

/-! ## The main loop -/

/-- The user-message block of the main loop applied to the sender's
current record: the unconditional counter updates (`messages`,
`char_sum`, `word_sum`, first-write-wins `first_ts`, always-overwritten
`last_ts`) followed by the three conditional detections (media, deleted,
blocked word). -/
def updateRec (bad_words : List String) (dt : PDateTime) (message : String) (s0 : UserRec) : UserRec :=
  let s1 := { s0 with
    messages := s0.messages + 1
    char_sum := s0.char_sum + message.length
    word_sum := s0.word_sum + (pyWords message).length
    first_ts := match s0.first_ts with | some t => some t | none => some dt
    last_ts := some dt }
  let s2 := if pyIn MEDIA_TAG message then { s1 with media := s1.media + 1 } else s1
  let s3 := if pyIn (pyLower DELETED_TAG) (pyLower message) then
      { s2 with deleted := s2.deleted + 1 } else s2
  if !bad_words.isEmpty && bad_words.any (fun bw => pyIn bw message) then
    { s3 with bad_word := s3.bad_word + 1 }
  else s3

/-- One iteration of the main `for raw in lines` loop, parameterised by
the calendar mode (`jdatetime` availability) and the loaded blocklist.
Mirrors the source line by line: skip lines without `" - "`, split at the
first occurrence, drop the line if the timestamp fails to parse, bump the
histograms and the per-day counter, then classify the payload. -/
def processLine (mode : CalMode) (bad_words : List String) (st : AState) (raw : String) : AState :=
  match pySplit1 " - " raw with
  | none => st
  | some (ts_part, content) =>
    match parse_timestamp ts_part with
    | none => st
    | some dt =>
      let fmt := format_jalali_date mode dt
      let date_label := fmt.1
      let weekday_idx := fmt.2.1
      let month_num := fmt.2.2
      let st := { st with
        hour_counts := bumpN st.hour_counts dt.hour
        weekday_counts := bumpN st.weekday_counts weekday_idx
        month_counts := bumpN st.month_counts month_num
        messages_per_day := bumpL st.messages_per_day date_label }
      match pySplit1 ":" content with
      | some (sender0, message0) =>
        -- ===== User message =====
        let sender := pyStrip sender0
        let message := pyStrip message0
        if sender = "" then st
        else
          let r1 := updateRec bad_words dt message ((lookupU st.user_stats sender).getD initRec)
          let st1 := if pyIn MEDIA_TAG message then
              { st with media_per_day := bumpL st.media_per_day date_label } else st
          { st1 with user_stats := insertU st1.user_stats sender r1 }
      | none =>
        -- ===== System message =====
        match re_created content with
        | some (creator, gname) =>
          { st with group_info :=
              ⟨some date_label, some (pyStrip creator),
               some (if pyStrip gname = "" then "(unnamed)" else pyStrip gname)⟩ }
        | none =>
          match re_group_rename raw with
          | some (ts_raw, changer, old_name, new_name) =>
            match parse_timestamp (pyStrip ts_raw) with
            | some dt_rename =>
              { st with group_renames := st.group_renames ++
                  [((format_jalali_date mode dt_rename).1,
                    pyStrip changer, pyStrip old_name, pyStrip new_name)] }
            | none => st
          | none => st

/-- The whole main loop over the transcript. -/
def runAnalyzer (mode : CalMode) (bad_words : List String) (lines : List String) : AState :=
  lines.foldl (processLine mode bad_words) initState

/-! ## Report fragments used by the analysed properties -/

/-- Average characters per message (line
`avg_c = d["char_sum"] / d["messages"] if d["messages"] else 0`),
with Python's true division idealised in `ℚ`. -/
def avgChars (r : UserRec) : ℚ :=
  if r.messages ≠ 0 then (r.char_sum : ℚ) / (r.messages : ℚ) else 0

/-- Average words per message (line
`avg_w = d["word_sum"] / d["messages"] if d["messages"] else 0`). -/
def avgWords (r : UserRec) : ℚ :=
  if r.messages ≠ 0 then (r.word_sum : ℚ) / (r.messages : ℚ) else 0

/-- Persian weekday names, Saturday at index 0 (source list). -/
def FA_WEEKDAYS : List String :=
  ["شنبه", "یکشنبه", "دوشنبه", "سه‌شنبه", "چهارشنبه", "پنج‌شنبه", "جمعه"]

/-- English fallback weekday names in the source's literal order. -/
def EN_WEEKDAYS : List String :=
  ["Mon", "Tue", "Wed", "Thu", "Fri", "Sat", "Sun"]

/-- The label printed for weekday bucket `i`:
`FA_WEEKDAYS[i] if jdatetime else [...][(i+1)%7]`. -/
def weekdayLabel (mode : CalMode) (i : Nat) : String :=
  match mode with
  | CalMode.jalali => FA_WEEKDAYS.getD i ""
  | CalMode.greg => EN_WEEKDAYS.getD ((i + 1) % 7) ""

/-- The rename-history section: the rename lines, or the explicit
"No renames detected." message. -/
def renameHistoryLines (st : AState) : List String :=
  if st.group_renames.isEmpty then ["No renames detected."]
  else st.group_renames.map (fun e =>
    "🕒 " ++ e.1 ++ " | 👤 " ++ e.2.1 ++ " renamed → “" ++ e.2.2.1 ++ "” → “" ++ e.2.2.2 ++ "”")

/-- The hourly-distribution section: one `HH: n` entry per hour 0‑23. -/
def hourlyLines (st : AState) : List String :=
  (List.range 24).map (fun h => pad2 h ++ ": " ++ toString (st.hour_counts h))

/-- Left-justified padding to width 9 (`f"{name:<9}"`). -/
def padTo9 (s : String) : String :=
  s ++ String.mk (List.replicate (9 - s.length) ' ')

/-- The weekday-distribution section: one labelled entry per bucket 0‑6. -/
def weekdayLines (mode : CalMode) (st : AState) : List String :=
  (List.range 7).map (fun i => padTo9 (weekdayLabel mode i) ++ ": " ++ toString (st.weekday_counts i))

/-- The monthly-distribution section: one `MM: n` entry per month 1‑12. -/
def monthlyLines (st : AState) : List String :=
  (List.range 12).map (fun m => pad2 (m + 1) ++ ": " ++ toString (st.month_counts (m + 1)))

/-- Models `total_msgs = sum(hour_counts.values())`; every recorded hour lies in
0‑23, so the value sum is the sum of the 24 buckets. -/
def totalMsgs (st : AState) : Nat :=
  ∑ h ∈ Finset.range 24, st.hour_counts h

/-- Python `max(items, key=value)` over an association list: `none` on an
empty list (a `ValueError`), otherwise the first entry of maximal value. -/
def pyMaxBy : List (String × Nat) → Option (String × Nat)
  | [] => none
  | p :: rest =>
    match pyMaxBy rest with
    | none => some p
    | some q => if q.2 > p.2 then some q else some p

/-- Python `min(items, key=value)`: `none` on an empty list, otherwise the
first entry of minimal value. -/
def pyMinBy : List (String × Nat) → Option (String × Nat)
  | [] => none
  | p :: rest =>
    match pyMinBy rest with
    | none => some p
    | some q => if q.2 < p.2 then some q else some p

/-- The guarded daily-stats section (`if total_msgs:`).  `none` models an
uncaught `ValueError` from `max()`/`min()` on an empty dict; when
`total_msgs` is zero the whole block is skipped and nothing is printed. -/
def dailyStatsLines (st : AState) : Option (List String) :=
  if totalMsgs st ≠ 0 then
    let media := (pyMaxBy st.media_per_day).getD ("-", 0)
    match pyMaxBy st.messages_per_day, pyMinBy st.messages_per_day with
    | some mx, some mn =>
      some ["Total messages : " ++ toString (totalMsgs st),
            "Day with most media : " ++ media.1 ++ " (" ++ toString media.2 ++ " files sent)",
            "Most active day : " ++ mx.1 ++ " (" ++ toString mx.2 ++ " messages)",
            "Least active day: " ++ mn.1 ++ " (" ++ toString mn.2 ++ " messages)"]
    | _, _ => none
  else some []

/-! ## Specification-side observation functions

These re-read the classifier's conditions to describe single lines; the
theorems relate them to the state the main loop actually builds. -/

/-- Does the line carry the separator and a parseable timestamp (and thus
feed the histograms)? -/
def lineParses (raw : String) : Bool :=
  match pySplit1 " - " raw with
  | none => false
  | some (ts_part, _) => (parse_timestamp ts_part).isSome

/-- The sender and timestamp of a line the classifier accepts as a user
message (payload has a `:` with a non-empty trimmed prefix). -/
def userMsgOf (raw : String) : Option (String × PDateTime) :=
  match pySplit1 " - " raw with
  | none => none
  | some (ts_part, content) =>
    match parse_timestamp ts_part with
    | none => none
    | some dt =>
      match pySplit1 ":" content with
      | some (sender0, _) =>
        if pyStrip sender0 = "" then none else some (pyStrip sender0, dt)
      | none => none

/-- The timestamps of user `u`'s classified messages, in transcript
order. -/
def userMsgTimes (lines : List String) (u : String) : List PDateTime :=
  lines.filterMap (fun raw =>
    match userMsgOf raw with
    | some (s, dt) => if s = u then some dt else none
    | none => none)

/-- The creation event a line contributes: the line parses, its payload
has no `:`, and `RE_CREATED` matches; result is the recorded
(timestamp label, creator, group name) triple. -/
def createdEvent (mode : CalMode) (raw : String) : Option (String × String × String) :=
  match pySplit1 " - " raw with
  | none => none
  | some (ts_part, content) =>
    match parse_timestamp ts_part with
    | none => none
    | some dt =>
      match pySplit1 ":" content with
      | some _ => none
      | none =>
        match re_created content with
        | some (creator, gname) =>
          some ((format_jalali_date mode dt).1, pyStrip creator,
                if pyStrip gname = "" then "(unnamed)" else pyStrip gname)
        | none => none

/-- Number of lines that contain the separator and a parseable
timestamp. -/
def countParseable (lines : List String) : Nat :=
  (lines.filter lineParses).length

/-- First-write-wins composition of first timestamps. -/
def combFirst (o : Option PDateTime) (ts : List PDateTime) : Option PDateTime :=
  match o with
  | some t => some t
  | none => ts.head?

/-- Always-overwrite composition of last timestamps. -/
def combLast (o : Option PDateTime) (ts : List PDateTime) : Option PDateTime :=
  match ts.getLast? with
  | some t => some t
  | none => o

/-- The classification outcomes of the classifier contract. -/
inductive LineClass
  | userMsg (sender message : String)
  | created (creator gname : String)
  | renamed (ts_raw changer old_name new_name : String)
  | ignored
deriving DecidableEq, Repr

/-- The classifier contract as amended: a line without separator or
parseable timestamp is dropped before classification (`none`); a payload
containing `":"` is a user message when the trimmed prefix is non-empty
and is silently IGNORED when the trimmed prefix is empty (the group
patterns are not tried); only a payload with no `":"` at all is tried
against the group-created pattern on the payload and then the
group-renamed pattern on the entire original line; anything left is
ignored. -/
def classifyAmended (raw : String) : Option LineClass :=
  match pySplit1 " - " raw with
  | none => none
  | some (ts_part, content) =>
    match parse_timestamp ts_part with
    | none => none
    | some _ =>
      some (match pySplit1 ":" content with
        | some (sender0, message0) =>
          if pyStrip sender0 = "" then LineClass.ignored
          else LineClass.userMsg (pyStrip sender0) (pyStrip message0)
        | none =>
          match re_created content with
          | some (creator, gname) =>
            LineClass.created (pyStrip creator)
              (if pyStrip gname = "" then "(unnamed)" else pyStrip gname)
          | none =>
            match re_group_rename raw with
            | some (t, c, o, n) => LineClass.renamed t c o n
            | none => LineClass.ignored)

/-! ## Lemmas: parser range guarantees -/

theorem mkValidDT_bounds {year month day hour minute : Nat} {d : PDateTime}
    (h : mkValidDT year month day hour minute = some d) :
    1 ≤ d.month ∧ d.month ≤ 12 ∧ d.hour ≤ 23 := by
  unfold mkValidDT at h
  split at h
  · next hc =>
    simp only [Option.some.injEq] at h
    subst h
    simp only [Bool.and_eq_true, decide_eq_true_eq] at hc
    exact ⟨hc.1.1.1.1.1, hc.1.1.1.1.2, hc.1.2⟩
  · exact absurd h (by simp)

theorem buildDT_bounds {ord : DateOrder} {f : ScanOut} {d : PDateTime}
    (h : buildDT ord f = some d) :
    1 ≤ d.month ∧ d.month ≤ 12 ∧ d.hour ≤ 23 :=
  mkValidDT_bounds h

theorem strptime_bounds {ord : DateOrder} {clock : Clock} {s : String} {d : PDateTime}
    (h : strptime ord clock s = some d) :
    1 ≤ d.month ∧ d.month ≤ 12 ∧ d.hour ≤ 23 := by
  unfold strptime at h
  split at h
  · exact absurd h (by simp)
  · exact buildDT_bounds h

theorem parse_timestamp_bounds {s : String} {d : PDateTime}
    (h : parse_timestamp s = some d) :
    1 ≤ d.month ∧ d.month ≤ 12 ∧ d.hour ≤ 23 := by
  unfold parse_timestamp at h
  obtain ⟨fmt, -, hf⟩ := List.exists_of_findSome?_eq_some h
  exact strptime_bounds hf

/-! ## Lemmas: calendar range guarantees -/

theorem jDayNorm_le (days : Nat) : jDayNorm days ≤ 365 := by
  unfold jDayNorm
  dsimp only
  split <;> omega

theorem jSplitMonth_bounds {d3 : Nat} (h : d3 ≤ 365) :
    1 ≤ (jSplitMonth d3).1 ∧ (jSplitMonth d3).1 ≤ 12 := by
  unfold jSplitMonth
  split <;> dsimp only <;> constructor <;> omega

theorem g2j_month_bounds (dt : PDateTime) :
    1 ≤ (g2j dt).jmonth ∧ (g2j dt).jmonth ≤ 12 := by
  unfold g2j
  dsimp only
  exact jSplitMonth_bounds (jDayNorm_le _)

theorem format_weekday_lt (mode : CalMode) (dt : PDateTime) :
    (format_jalali_date mode dt).2.1 < 7 := by
  cases mode <;> simp only [format_jalali_date, jweekday] <;> omega

theorem format_month_bounds (mode : CalMode) {dt : PDateTime}
    (h1 : 1 ≤ dt.month) (h2 : dt.month ≤ 12) :
    1 ≤ (format_jalali_date mode dt).2.2 ∧ (format_jalali_date mode dt).2.2 ≤ 12 := by
  cases mode
  · exact g2j_month_bounds dt
  · exact ⟨h1, h2⟩

/-! ## Lemmas: counter sums under a bump -/

theorem sum_bumpN {f : Nat → Nat} {k n : Nat} (hk : k < n) :
    ∑ i ∈ Finset.range n, bumpN f k i = (∑ i ∈ Finset.range n, f i) + 1 := by
  have he : ∀ i, bumpN f k i = f i + (if i = k then 1 else 0) := by
    intro i; unfold bumpN; split <;> simp
  calc ∑ i ∈ Finset.range n, bumpN f k i
      = ∑ i ∈ Finset.range n, (f i + if i = k then 1 else 0) :=
        Finset.sum_congr rfl (fun i _ => he i)
    _ = (∑ i ∈ Finset.range n, f i) + ∑ i ∈ Finset.range n, (if i = k then 1 else 0) :=
        Finset.sum_add_distrib
    _ = (∑ i ∈ Finset.range n, f i) + 1 := by
        rw [Finset.sum_ite_eq' (Finset.range n) k (fun _ => 1)]
        simp [Finset.mem_range.mpr hk]

theorem sum_bumpN_shift {f : Nat → Nat} {k : Nat} (h1 : 1 ≤ k) (h2 : k ≤ 12) :
    ∑ m ∈ Finset.range 12, bumpN f k (m + 1) = (∑ m ∈ Finset.range 12, f (m + 1)) + 1 := by
  have he : ∀ m, bumpN f k (m + 1) = f (m + 1) + (if m = k - 1 then 1 else 0) := by
    intro m; unfold bumpN
    by_cases h : m + 1 = k
    · rw [if_pos h, if_pos (by omega)]
    · rw [if_neg h, if_neg (by omega)]; omega
  calc ∑ m ∈ Finset.range 12, bumpN f k (m + 1)
      = ∑ m ∈ Finset.range 12, (f (m + 1) + if m = k - 1 then 1 else 0) :=
        Finset.sum_congr rfl (fun m _ => he m)
    _ = (∑ m ∈ Finset.range 12, f (m + 1)) + ∑ m ∈ Finset.range 12, (if m = k - 1 then 1 else 0) :=
        Finset.sum_add_distrib
    _ = (∑ m ∈ Finset.range 12, f (m + 1)) + 1 := by
        rw [Finset.sum_ite_eq' (Finset.range 12) (k - 1) (fun _ => 1)]
        simp [Finset.mem_range.mpr (show k - 1 < 12 by omega)]

/-! ## Lemmas: single-step behaviour of the main loop -/

theorem lineParses_true {raw : String} (h : lineParses raw = true) :
    ∃ p dt, pySplit1 " - " raw = some p ∧ parse_timestamp p.1 = some dt := by
  unfold lineParses at h
  cases hsp : pySplit1 " - " raw with
  | none => rw [hsp] at h; cases h
  | some p =>
    obtain ⟨a, b⟩ := p
    rw [hsp] at h
    dsimp only at h
    cases hdt : parse_timestamp a with
    | none => rw [hdt] at h; simp at h
    | some dt => exact ⟨(a, b), dt, rfl, hdt⟩

/-- A line without the separator, or with an unparseable timestamp, leaves
the state untouched. -/
theorem processLine_of_not_parse (mode : CalMode) (bw : List String) (st : AState)
    {raw : String} (h : lineParses raw = false) :
    processLine mode bw st raw = st := by
  unfold lineParses at h
  unfold processLine
  cases hsp : pySplit1 " - " raw with
  | none => rfl
  | some p =>
    obtain ⟨a, b⟩ := p
    rw [hsp] at h
    dsimp only at h ⊢
    cases hdt : parse_timestamp a with
    | none => rfl
    | some dt => rw [hdt] at h; simp at h

/-- On a parseable line, each of the three histograms is bumped exactly at
the indices derived from the timestamp, whatever the classification of
the payload. -/
theorem processLine_hist {mode : CalMode} {bw : List String} {st : AState}
    {raw ts_part content : String} {dt : PDateTime}
    (hsp : pySplit1 " - " raw = some (ts_part, content))
    (hdt : parse_timestamp ts_part = some dt) :
    (processLine mode bw st raw).hour_counts = bumpN st.hour_counts dt.hour ∧
    (processLine mode bw st raw).weekday_counts
      = bumpN st.weekday_counts (format_jalali_date mode dt).2.1 ∧
    (processLine mode bw st raw).month_counts
      = bumpN st.month_counts (format_jalali_date mode dt).2.2 := by
  unfold processLine
  rw [hsp]
  dsimp only
  rw [hdt]
  dsimp only
  split
  · split
    · exact ⟨rfl, rfl, rfl⟩
    · split <;> exact ⟨rfl, rfl, rfl⟩
  · split
    · exact ⟨rfl, rfl, rfl⟩
    · split
      · split <;> exact ⟨rfl, rfl, rfl⟩
      · exact ⟨rfl, rfl, rfl⟩

theorem countParseable_cons (raw : String) (rest : List String) :
    countParseable (raw :: rest)
      = (if lineParses raw then 1 else 0) + countParseable rest := by
  unfold countParseable
  by_cases h : lineParses raw
  · simp [List.filter_cons, h]; omega
  · simp [List.filter_cons, h]

theorem c3_aux (mode : CalMode) (bw : List String) :
    ∀ (lines : List String) (st : AState),
      ((∑ h ∈ Finset.range 24, (List.foldl (processLine mode bw) st lines).hour_counts h)
        = (∑ h ∈ Finset.range 24, st.hour_counts h) + countParseable lines) ∧
      ((∑ i ∈ Finset.range 7, (List.foldl (processLine mode bw) st lines).weekday_counts i)
        = (∑ i ∈ Finset.range 7, st.weekday_counts i) + countParseable lines) ∧
      ((∑ m ∈ Finset.range 12, (List.foldl (processLine mode bw) st lines).month_counts (m + 1))
        = (∑ m ∈ Finset.range 12, st.month_counts (m + 1)) + countParseable lines) := by
  intro lines
  induction lines with
  | nil => intro st; simp [countParseable]
  | cons raw rest ih =>
    intro st
    rw [List.foldl_cons]
    by_cases hp : lineParses raw
    · obtain ⟨⟨a, b⟩, dt, hsp, hdt⟩ := lineParses_true hp
      obtain ⟨hh, hw, hm⟩ := @processLine_hist mode bw st raw a b dt hsp hdt
      obtain ⟨ihh, ihw, ihm⟩ := ih (processLine mode bw st raw)
      obtain ⟨hd1, hd2, hd3⟩ := parse_timestamp_bounds hdt
      obtain ⟨hm1, hm2⟩ := format_month_bounds mode hd1 hd2
      rw [countParseable_cons, if_pos hp]
      refine ⟨?_, ?_, ?_⟩
      · rw [ihh, hh, sum_bumpN (by omega : dt.hour < 24)]; omega
      · rw [ihw, hw, sum_bumpN (format_weekday_lt mode dt)]; omega
      · rw [ihm, hm, sum_bumpN_shift hm1 hm2]; omega
    · rw [processLine_of_not_parse mode bw st (Bool.not_eq_true _ ▸ hp),
        countParseable_cons, if_neg hp]
      obtain ⟨ihh, ihw, ihm⟩ := ih st
      exact ⟨by omega, by omega, by omega⟩

/-- C3: for every transcript (in either calendar mode and with any
blocklist), the 24 hour buckets, the 7 weekday buckets and the 12 month
buckets all sum to the number of lines that contain the `" - "`
separator and whose timestamp substring parses successfully — including
lines later classified as unrecognised system events. -/
theorem c3_histogram_sums (mode : CalMode) (bad_words : List String) (lines : List String) :
    ((∑ h ∈ Finset.range 24, (runAnalyzer mode bad_words lines).hour_counts h)
      = countParseable lines) ∧
    ((∑ i ∈ Finset.range 7, (runAnalyzer mode bad_words lines).weekday_counts i)
      = countParseable lines) ∧
    ((∑ m ∈ Finset.range 12, (runAnalyzer mode bad_words lines).month_counts (m + 1))
      = countParseable lines) := by
  obtain ⟨h1, h2, h3⟩ := c3_aux mode bad_words lines initState
  refine ⟨?_, ?_, ?_⟩
  · rw [runAnalyzer, h1]; simp [initState]
  · rw [runAnalyzer, h2]; simp [initState]
  · rw [runAnalyzer, h3]; simp [initState]

/-! ## Lemmas: the user dictionary -/

theorem lookupU_insertU_self (l : List (String × UserRec)) (k : String) (r : UserRec) :
    lookupU (insertU l k r) k = some r := by
  induction l with
  | nil => simp [insertU, lookupU]
  | cons p rest ih =>
    obtain ⟨k', v⟩ := p
    unfold insertU
    by_cases h : k' = k
    · rw [if_pos h]; unfold lookupU; rw [if_pos h]
    · rw [if_neg h]; unfold lookupU; rw [if_neg h]; exact ih

theorem lookupU_insertU_ne (l : List (String × UserRec)) {k u : String} (r : UserRec)
    (h : k ≠ u) : lookupU (insertU l k r) u = lookupU l u := by
  induction l with
  | nil => simp [insertU, lookupU, h]
  | cons p rest ih =>
    obtain ⟨k', v⟩ := p
    unfold insertU
    by_cases h' : k' = k
    · rw [if_pos h']; unfold lookupU; rw [if_neg (h' ▸ h), if_neg (h' ▸ h)]
    · rw [if_neg h']; unfold lookupU
      by_cases h'' : k' = u
      · rw [if_pos h'', if_pos h'']
      · rw [if_neg h'', if_neg h'']; exact ih

theorem mem_insertU {l : List (String × UserRec)} {k : String} {r : UserRec}
    {p : String × UserRec} (h : p ∈ insertU l k r) : p ∈ l ∨ p = (k, r) := by
  induction l with
  | nil => simp [insertU] at h; simp [h]
  | cons q rest ih =>
    obtain ⟨k', v⟩ := q
    unfold insertU at h
    by_cases h' : k' = k
    · rw [if_pos h'] at h
      rcases List.mem_cons.mp h with h1 | h1
      · exact Or.inr (by simp [h1, h'])
      · exact Or.inl (List.mem_cons_of_mem _ h1)
    · rw [if_neg h'] at h
      rcases List.mem_cons.mp h with h1 | h1
      · exact Or.inl (by simp [h1])
      · rcases ih h1 with h2 | h2
        · exact Or.inl (List.mem_cons_of_mem _ h2)
        · exact Or.inr h2

theorem updateRec_proj (bw : List String) (dt : PDateTime) (msg : String) (s0 : UserRec) :
    (updateRec bw dt msg s0).messages = s0.messages + 1 ∧
    (updateRec bw dt msg s0).first_ts
      = (match s0.first_ts with | some t => some t | none => some dt) ∧
    (updateRec bw dt msg s0).last_ts = some dt := by
  unfold updateRec
  dsimp only
  refine ⟨?_, ?_, ?_⟩
  · repeat' split
    all_goals rfl
  · repeat' split
    all_goals rfl
  · repeat' split
    all_goals rfl

/-- Effect of one loop iteration on `user_stats`: either untouched (and
the line is not a classified user message), or a single store for the
classified sender of a record whose message count is the previous count
plus one, whose first timestamp is first-write-wins and whose last
timestamp is overwritten unconditionally. -/
theorem processLine_user_cases (mode : CalMode) (bw : List String) (st : AState) (raw : String) :
    ((processLine mode bw st raw).user_stats = st.user_stats ∧ userMsgOf raw = none) ∨
    (∃ s dt r, userMsgOf raw = some (s, dt) ∧
      (processLine mode bw st raw).user_stats = insertU st.user_stats s r ∧
      r.messages = ((lookupU st.user_stats s).getD initRec).messages + 1 ∧
      r.first_ts = (match ((lookupU st.user_stats s).getD initRec).first_ts with
                    | some t => some t
                    | none => some dt) ∧
      r.last_ts = some dt) := by
  unfold processLine userMsgOf
  cases hsp : pySplit1 " - " raw with
  | none => exact Or.inl ⟨rfl, rfl⟩
  | some p =>
    obtain ⟨a, b⟩ := p
    dsimp only
    cases hdt : parse_timestamp a with
    | none => exact Or.inl ⟨rfl, rfl⟩
    | some dt =>
      dsimp only
      cases hc : pySplit1 ":" b with
      | none =>
        refine Or.inl ⟨?_, rfl⟩
        dsimp only
        split
        · rfl
        · split
          · split <;> rfl
          · rfl
      | some q =>
        obtain ⟨s0, m0⟩ := q
        dsimp only
        by_cases hs : pyStrip s0 = ""
        · rw [if_pos hs, if_pos hs]
          exact Or.inl ⟨rfl, rfl⟩
        · rw [if_neg hs, if_neg hs]
          refine Or.inr ⟨pyStrip s0, dt,
            updateRec bw dt (pyStrip m0) ((lookupU st.user_stats (pyStrip s0)).getD initRec),
            rfl, ?_, ?_, ?_, ?_⟩
          · dsimp only
            split <;> rfl
          · exact (updateRec_proj bw dt (pyStrip m0) _).1
          · exact (updateRec_proj bw dt (pyStrip m0) _).2.1
          · exact (updateRec_proj bw dt (pyStrip m0) _).2.2

theorem combLast_none (ts : List PDateTime) : combLast none ts = ts.getLast? := by
  unfold combLast; cases ts.getLast? <;> rfl

theorem combFirst_nil (o : Option PDateTime) : combFirst o [] = o := by
  cases o <;> rfl

theorem combLast_nil (o : Option PDateTime) : combLast o [] = o := rfl

theorem getLast?_cons' {α : Type} (a : α) (l : List α) :
    (a :: l).getLast? = some ((l.getLast?).getD a) := by
  induction l generalizing a with
  | nil => rfl
  | cons b m ih => rw [List.getLast?_cons_cons, ih b]; rfl

theorem userMsgTimes_cons (raw : String) (rest : List String) (u : String) :
    userMsgTimes (raw :: rest) u =
      (match userMsgOf raw with
       | some (s, dt) => if s = u then dt :: userMsgTimes rest u else userMsgTimes rest u
       | none => userMsgTimes rest u) := by
  unfold userMsgTimes
  rw [List.filterMap_cons]
  cases hm : userMsgOf raw with
  | none => rfl
  | some p =>
    obtain ⟨s, dt⟩ := p
    dsimp only
    by_cases h : s = u
    · rw [if_pos h, if_pos h]
    · rw [if_neg h, if_neg h]

/-- Invariant of the whole fold: looking up a user after processing
`lines` from state `st` composes the previous record with that user's
message timestamps in `lines`. -/
theorem runUser_aux (mode : CalMode) (bw : List String) :
    ∀ (lines : List String) (st : AState) (u : String),
      (lookupU (List.foldl (processLine mode bw) st lines).user_stats u = none ↔
        (lookupU st.user_stats u = none ∧ userMsgTimes lines u = [])) ∧
      (∀ r, lookupU (List.foldl (processLine mode bw) st lines).user_stats u = some r →
        r.messages = ((lookupU st.user_stats u).getD initRec).messages
            + (userMsgTimes lines u).length ∧
        r.first_ts = combFirst ((lookupU st.user_stats u).getD initRec).first_ts
            (userMsgTimes lines u) ∧
        r.last_ts = combLast ((lookupU st.user_stats u).getD initRec).last_ts
            (userMsgTimes lines u)) := by
  intro lines
  induction lines with
  | nil =>
    intro st u
    constructor
    · simp [userMsgTimes]
    · intro r hr
      simp only [List.foldl_nil] at hr
      rw [hr]
      simp only [Option.getD_some]
      simp [userMsgTimes, combFirst_nil, combLast_nil]
  | cons raw rest ih =>
    intro st u
    rw [List.foldl_cons]
    rcases processLine_user_cases mode bw st raw with ⟨hus, hnone⟩ | ⟨s, dt, r1, hm, hins, hmsg, hfst, hlst⟩
    · obtain ⟨ih1, ih2⟩ := ih (processLine mode bw st raw) u
      rw [hus] at ih1 ih2
      rw [userMsgTimes_cons, hnone]
      exact ⟨ih1, ih2⟩
    · by_cases hsu : s = u
      · subst hsu
        obtain ⟨ih1, ih2⟩ := ih (processLine mode bw st raw) s
        have hlook : lookupU (processLine mode bw st raw).user_stats s = some r1 := by
          rw [hins]; exact lookupU_insertU_self _ _ _
        rw [hlook] at ih1 ih2
        rw [userMsgTimes_cons, hm]
        dsimp only
        rw [if_pos rfl]
        constructor
        · constructor
          · intro hfin
            exact absurd (ih1.mp hfin).1 (by simp)
          · intro hc
            exact absurd hc.2 (by simp)
        · intro r hr
          obtain ⟨jm, jf, jl⟩ := ih2 r hr
          dsimp only [Option.getD] at jm jf jl
          refine ⟨?_, ?_, ?_⟩
          · rw [jm, hmsg]; simp; omega
          · rw [jf, hfst]
            cases hpf : ((lookupU st.user_stats s).getD initRec).first_ts with
            | some t => simp [combFirst]
            | none => simp [combFirst]
          · rw [jl, hlst]
            unfold combLast
            rw [getLast?_cons']
            cases hrl : (userMsgTimes rest s).getLast? with
            | some t => rfl
            | none => rfl
      · obtain ⟨ih1, ih2⟩ := ih (processLine mode bw st raw) u
        have hlook : lookupU (processLine mode bw st raw).user_stats u
            = lookupU st.user_stats u := by
          rw [hins]; exact lookupU_insertU_ne _ _ hsu
        rw [hlook] at ih1 ih2
        rw [userMsgTimes_cons, hm]
        dsimp only
        rw [if_neg hsu]
        exact ⟨ih1, ih2⟩

/-- C7: for every user with a record after a run, the first timestamp is
the timestamp of that user's first classified message in transcript
order (set exactly once) and the last timestamp is the timestamp of the
last one (overwritten on every message), with the message count equal to
the number of classified messages — all in transcript order, with no
min/max comparison, so `first_ts ≤ last_ts` is not guaranteed for
transcripts that are not time-ordered. -/
theorem c7_first_last (mode : CalMode) (bad_words : List String) (lines : List String)
    (u : String) (r : UserRec)
    (h : lookupU (runAnalyzer mode bad_words lines).user_stats u = some r) :
    r.first_ts = (userMsgTimes lines u).head? ∧
    r.last_ts = (userMsgTimes lines u).getLast? ∧
    r.messages = (userMsgTimes lines u).length := by
  obtain ⟨-, hproj⟩ := runUser_aux mode bad_words lines initState u
  obtain ⟨hm, hf, hl⟩ := hproj r (by rwa [runAnalyzer] at h)
  have h0 : lookupU initState.user_stats u = none := rfl
  rw [h0] at hm hf hl
  refine ⟨?_, ?_, ?_⟩
  · rw [hf]; rfl
  · rw [hl]; exact combLast_none _
  · rw [hm]; simp [initRec]

theorem c10_aux (mode : CalMode) (bw : List String) :
    ∀ (lines : List String) (st : AState),
      (∀ p ∈ st.user_stats, 1 ≤ p.2.messages) →
      ∀ p ∈ (List.foldl (processLine mode bw) st lines).user_stats, 1 ≤ p.2.messages := by
  intro lines
  induction lines with
  | nil => intro st hst; simpa using hst
  | cons raw rest ih =>
    intro st hst
    rw [List.foldl_cons]
    refine ih (processLine mode bw st raw) ?_
    rcases processLine_user_cases mode bw st raw with ⟨hus, -⟩ | ⟨s, dt, r1, -, hins, hmsg, -, -⟩
    · rw [hus]; exact hst
    · rw [hins]
      intro p hp
      rcases mem_insertU hp with h1 | h1
      · exact hst p h1
      · rw [h1]; dsimp only; rw [hmsg]; omega

/-- C10: every user record present when the report is rendered has a
message count of at least one (records are only created by classifying a
user message, which immediately increments the count), so the
zero-divisor guard in the per-user averages is unreachable and both
averages are divisions by a positive count. -/
theorem c10_avg_guard (mode : CalMode) (bad_words : List String) (lines : List String)
    (u : String) (r : UserRec)
    (h : (u, r) ∈ (runAnalyzer mode bad_words lines).user_stats) :
    0 < r.messages ∧ ((r.messages : ℚ) ≠ 0 ∧
    avgChars r = (r.char_sum : ℚ) / (r.messages : ℚ) ∧
    avgWords r = (r.word_sum : ℚ) / (r.messages : ℚ)) := by
  have h1 : 1 ≤ r.messages := by
    have hmem := c10_aux mode bad_words lines initState
      (by intro p hp; simp [initState] at hp) (u, r)
    exact hmem (by rwa [runAnalyzer] at h)
  refine ⟨h1, ?_, ?_, ?_⟩
  · exact Nat.cast_ne_zero.mpr (by omega)
  · unfold avgChars; rw [if_pos (by omega)]
  · unfold avgWords; rw [if_pos (by omega)]

/-! ## Lemmas: the group-creation record -/

/-- Effect of one loop iteration on `group_info`: overwritten by the
line's creation event when there is one, untouched otherwise. -/
theorem processLine_group_info (mode : CalMode) (bw : List String) (st : AState) (raw : String) :
    (processLine mode bw st raw).group_info =
      (match createdEvent mode raw with
       | some e => ⟨some e.1, some e.2.1, some e.2.2⟩
       | none => st.group_info) := by
  unfold processLine createdEvent
  cases hsp : pySplit1 " - " raw with
  | none => rfl
  | some p =>
    obtain ⟨a, b⟩ := p
    dsimp only
    cases hdt : parse_timestamp a with
    | none => rfl
    | some dt =>
      dsimp only
      cases hc : pySplit1 ":" b with
      | some q =>
        obtain ⟨s0, m0⟩ := q
        dsimp only
        by_cases hs : pyStrip s0 = ""
        · rw [if_pos hs]
        · rw [if_neg hs]
          dsimp only
          split <;> rfl
      | none =>
        dsimp only
        cases hcr : re_created b with
        | some cg => rfl
        | none =>
          dsimp only
          split
          · split <;> rfl
          · rfl

theorem c2_aux (mode : CalMode) (bw : List String) :
    ∀ (lines : List String) (st : AState),
      (List.foldl (processLine mode bw) st lines).group_info =
        (match (lines.filterMap (createdEvent mode)).getLast? with
         | some e => ⟨some e.1, some e.2.1, some e.2.2⟩
         | none => st.group_info) := by
  intro lines
  induction lines with
  | nil => intro st; rfl
  | cons raw rest ih =>
    intro st
    rw [List.foldl_cons, List.filterMap_cons]
    cases hce : createdEvent mode raw with
    | none =>
      dsimp only
      rw [ih]
      cases h2 : (rest.filterMap (createdEvent mode)).getLast? with
      | some e => rfl
      | none =>
        dsimp only
        rw [processLine_group_info, hce]
    | some e =>
      dsimp only
      rw [ih, getLast?_cons']
      cases h2 : (rest.filterMap (createdEvent mode)).getLast? with
      | some e2 => rfl
      | none =>
        dsimp only
        rw [processLine_group_info, hce]
        rfl

/-- C2 (amended): the group-creation record is overwritten by every line
matching the group-created pattern, so after a run it holds the fields
of the LAST matching line (`group_info.update` has last-match-wins, not
first-match-wins, semantics); it is `None`-filled when no line
matches. -/
theorem c2_created_last_wins (mode : CalMode) (bad_words : List String) (lines : List String) :
    (runAnalyzer mode bad_words lines).group_info =
      (match (lines.filterMap (createdEvent mode)).getLast? with
       | some e => ⟨some e.1, some e.2.1, some e.2.2⟩
       | none => ⟨none, none, none⟩) := by
  rw [runAnalyzer, c2_aux]
  cases (lines.filterMap (createdEvent mode)).getLast? <;> rfl

/-! ## Lemmas: degenerate transcripts -/

theorem run_of_no_parse (mode : CalMode) (bw : List String) :
    ∀ lines : List String, (∀ raw ∈ lines, lineParses raw = false) →
      runAnalyzer mode bw lines = initState := by
  intro lines
  unfold runAnalyzer
  induction lines with
  | nil => intro h; rfl
  | cons raw rest ih =>
    intro h
    rw [List.foldl_cons,
      processLine_of_not_parse mode bw initState (h raw (List.mem_cons_self _ _))]
    exact ih (fun r hr => h r (List.mem_cons_of_mem _ hr))

/-! ## Remaining claim theorems -/

/-- C9: a transcript in which no line yields a parseable timestamp
(including the empty transcript) runs to completion and yields a report
whose hour, weekday and month buckets all print as zero, with the
explicit "No renames detected." message in place of the rename history;
the guarded daily-stats block prints nothing rather than failing on the
empty per-day dictionary. -/
theorem c9_zero_parseable (mode : CalMode) (bad_words : List String) (lines : List String)
    (h : ∀ raw ∈ lines, lineParses raw = false) :
    ((∀ i, (runAnalyzer mode bad_words lines).hour_counts i = 0) ∧
     (∀ i, (runAnalyzer mode bad_words lines).weekday_counts i = 0) ∧
     (∀ i, (runAnalyzer mode bad_words lines).month_counts i = 0)) ∧
    hourlyLines (runAnalyzer mode bad_words lines)
      = (List.range 24).map (fun i => pad2 i ++ ": 0") ∧
    weekdayLines mode (runAnalyzer mode bad_words lines)
      = (List.range 7).map (fun i => padTo9 (weekdayLabel mode i) ++ ": 0") ∧
    monthlyLines (runAnalyzer mode bad_words lines)
      = (List.range 12).map (fun m => pad2 (m + 1) ++ ": 0") ∧
    renameHistoryLines (runAnalyzer mode bad_words lines) = ["No renames detected."] ∧
    dailyStatsLines (runAnalyzer mode bad_words lines) = some [] := by
  rw [run_of_no_parse mode bad_words lines h]
  have ht : totalMsgs initState = 0 := by simp [totalMsgs, initState]
  refine ⟨⟨fun _ => rfl, fun _ => rfl, fun _ => rfl⟩, by decide, ?_, by decide, by decide, ?_⟩
  · cases mode <;> decide
  · unfold dailyStatsLines
    rw [ht]
    simp

/-- Witness for C9 at a concrete degenerate transcript: one line without
the separator and one whose timestamp fails every format. -/
theorem c9_zero_parseable_witness :
    renameHistoryLines (runAnalyzer CalMode.greg []
        ["hello world", "1/1/99, 25:00 - x: y"]) = ["No renames detected."] ∧
    dailyStatsLines (runAnalyzer CalMode.greg []
        ["hello world", "1/1/99, 25:00 - x: y"]) = some [] :=
  ⟨(c9_zero_parseable CalMode.greg [] ["hello world", "1/1/99, 25:00 - x: y"]
      (by decide)).2.2.2.2.1,
   (c9_zero_parseable CalMode.greg [] ["hello world", "1/1/99, 25:00 - x: y"]
      (by decide)).2.2.2.2.2⟩

/-- Witness for C7 at a concrete two-line transcript whose second message
carries an earlier clock time: the resulting record has its first
timestamp (09:53) after its last (09:10), showing transcript order, not
chronological order. -/
theorem c7_first_last_witness :
    ({ messages := 2, media := 0, deleted := 0, bad_word := 0, char_sum := 7, word_sum := 2,
       first_ts := some ⟨2020, 11, 4, 9, 53⟩,
       last_ts := some ⟨2020, 11, 4, 9, 10⟩ } : UserRec).first_ts
      = (userMsgTimes ["11/4/20, 9:53 AM - Ali: hi",
                       "11/4/20, 9:10 AM - Ali: again"] "Ali").head? ∧
    ({ messages := 2, media := 0, deleted := 0, bad_word := 0, char_sum := 7, word_sum := 2,
       first_ts := some ⟨2020, 11, 4, 9, 53⟩,
       last_ts := some ⟨2020, 11, 4, 9, 10⟩ } : UserRec).last_ts
      = (userMsgTimes ["11/4/20, 9:53 AM - Ali: hi",
                       "11/4/20, 9:10 AM - Ali: again"] "Ali").getLast? ∧
    ({ messages := 2, media := 0, deleted := 0, bad_word := 0, char_sum := 7, word_sum := 2,
       first_ts := some ⟨2020, 11, 4, 9, 53⟩,
       last_ts := some ⟨2020, 11, 4, 9, 10⟩ } : UserRec).messages
      = (userMsgTimes ["11/4/20, 9:53 AM - Ali: hi",
                       "11/4/20, 9:10 AM - Ali: again"] "Ali").length :=
  c7_first_last CalMode.greg [] ["11/4/20, 9:53 AM - Ali: hi", "11/4/20, 9:10 AM - Ali: again"]
    "Ali"
    { messages := 2, media := 0, deleted := 0, bad_word := 0, char_sum := 7, word_sum := 2,
      first_ts := some ⟨2020, 11, 4, 9, 53⟩, last_ts := some ⟨2020, 11, 4, 9, 10⟩ }
    (by decide)

/-- Witness for C10 at a concrete one-message transcript. -/
theorem c10_avg_guard_witness :
    0 < ({ messages := 1, media := 0, deleted := 0, bad_word := 0, char_sum := 2, word_sum := 1,
           first_ts := some ⟨2020, 11, 4, 9, 53⟩,
           last_ts := some ⟨2020, 11, 4, 9, 53⟩ } : UserRec).messages ∧
    ((({ messages := 1, media := 0, deleted := 0, bad_word := 0, char_sum := 2, word_sum := 1,
         first_ts := some ⟨2020, 11, 4, 9, 53⟩,
         last_ts := some ⟨2020, 11, 4, 9, 53⟩ } : UserRec).messages : ℚ) ≠ 0 ∧
     avgChars { messages := 1, media := 0, deleted := 0, bad_word := 0, char_sum := 2, word_sum := 1,
                first_ts := some ⟨2020, 11, 4, 9, 53⟩, last_ts := some ⟨2020, 11, 4, 9, 53⟩ }
       = (({ messages := 1, media := 0, deleted := 0, bad_word := 0, char_sum := 2, word_sum := 1,
             first_ts := some ⟨2020, 11, 4, 9, 53⟩,
             last_ts := some ⟨2020, 11, 4, 9, 53⟩ } : UserRec).char_sum : ℚ)
         / (({ messages := 1, media := 0, deleted := 0, bad_word := 0, char_sum := 2, word_sum := 1,
               first_ts := some ⟨2020, 11, 4, 9, 53⟩,
               last_ts := some ⟨2020, 11, 4, 9, 53⟩ } : UserRec).messages : ℚ) ∧
     avgWords { messages := 1, media := 0, deleted := 0, bad_word := 0, char_sum := 2, word_sum := 1,
                first_ts := some ⟨2020, 11, 4, 9, 53⟩, last_ts := some ⟨2020, 11, 4, 9, 53⟩ }
       = (({ messages := 1, media := 0, deleted := 0, bad_word := 0, char_sum := 2, word_sum := 1,
             first_ts := some ⟨2020, 11, 4, 9, 53⟩,
             last_ts := some ⟨2020, 11, 4, 9, 53⟩ } : UserRec).word_sum : ℚ)
         / (({ messages := 1, media := 0, deleted := 0, bad_word := 0, char_sum := 2, word_sum := 1,
               first_ts := some ⟨2020, 11, 4, 9, 53⟩,
               last_ts := some ⟨2020, 11, 4, 9, 53⟩ } : UserRec).messages : ℚ)) :=
  c10_avg_guard CalMode.greg [] ["11/4/20, 9:53 AM - Ali: hi"] "Ali"
    { messages := 1, media := 0, deleted := 0, bad_word := 0, char_sum := 2, word_sum := 1,
      first_ts := some ⟨2020, 11, 4, 9, 53⟩, last_ts := some ⟨2020, 11, 4, 9, 53⟩ }
    (by decide)

/-- C4: `parse_timestamp` tries exactly four format patterns in a fixed
order — (month/day, 12-hour), (day/month, 12-hour), (month/day, 24-hour),
(day/month, 24-hour), so month/day always before the corresponding
day/month — and returns the first successful parse, or `none` when all
four fail; and the main loop drops a line entirely when its timestamp
part parses to `none`. -/
theorem c4_format_order (s raw : String) (mode : CalMode) (bw : List String) (st : AState) :
    (parse_timestamp s =
      match strptime DateOrder.mdy Clock.h12 s with
      | some d => some d
      | none =>
        match strptime DateOrder.dmy Clock.h12 s with
        | some d => some d
        | none =>
          match strptime DateOrder.mdy Clock.h24 s with
          | some d => some d
          | none => strptime DateOrder.dmy Clock.h24 s) ∧
    (∀ p, pySplit1 " - " raw = some p → parse_timestamp p.1 = none →
      processLine mode bw st raw = st) := by
  constructor
  · unfold parse_timestamp formats
    simp only [List.findSome?]
    cases strptime DateOrder.mdy Clock.h12 s with
    | some d => rfl
    | none =>
      cases strptime DateOrder.dmy Clock.h12 s with
      | some d => rfl
      | none =>
        cases strptime DateOrder.mdy Clock.h24 s with
        | some d => rfl
        | none =>
          cases strptime DateOrder.dmy Clock.h24 s with
          | some d => rfl
          | none => rfl
  · intro p hsp hpt
    apply processLine_of_not_parse
    unfold lineParses
    obtain ⟨a, b⟩ := p
    rw [hsp]
    dsimp only
    dsimp only at hpt
    rw [hpt]
    rfl

/-- Witness for C4's caller-drop clause at a concrete line whose
timestamp part fails all four formats. -/
theorem c4_format_order_witness :
    processLine CalMode.greg [] initState "99/99/99, 9:99 - hi" = initState :=
  (c4_format_order "99/99/99, 9:99" "99/99/99, 9:99 - hi" CalMode.greg [] initState).2
    ("99/99/99, 9:99", "hi") (by decide) (by decide)

/-- C5: the calendar formatter returns (display string, weekday index,
month number) with the weekday index in 0‑6 in both modes and identical
across modes — the Gregorian fallback remaps Python's Monday-first
weekday by `(weekday + 2) % 7`, the Jalali mode uses the converter's
Saturday-first weekday directly, so Saturday is bucket 0 and Friday
bucket 6 — and a month number in 1‑12 in both modes. -/
theorem c5_formatter (dt : PDateTime) (h1 : 1 ≤ dt.month) (h2 : dt.month ≤ 12) :
    (∀ mode, (format_jalali_date mode dt).2.1 < 7) ∧
    (format_jalali_date CalMode.greg dt).2.1 = (pyWeekday dt + 2) % 7 ∧
    (format_jalali_date CalMode.jalali dt).2.1 = jweekday dt ∧
    (format_jalali_date CalMode.greg dt).2.1 = (format_jalali_date CalMode.jalali dt).2.1 ∧
    ((format_jalali_date CalMode.greg dt).2.1 = 0 ↔ pyWeekday dt = 5) ∧
    ((format_jalali_date CalMode.greg dt).2.1 = 6 ↔ pyWeekday dt = 4) ∧
    (∀ mode, 1 ≤ (format_jalali_date mode dt).2.2 ∧ (format_jalali_date mode dt).2.2 ≤ 12) := by
  have hw : pyWeekday dt < 7 := by
    unfold pyWeekday
    exact Nat.mod_lt _ (by omega)
  refine ⟨fun mode => format_weekday_lt mode dt, rfl, rfl, rfl, ?_, ?_,
    fun mode => format_month_bounds mode h1 h2⟩
  · show (pyWeekday dt + 2) % 7 = 0 ↔ pyWeekday dt = 5
    omega
  · show (pyWeekday dt + 2) % 7 = 6 ↔ pyWeekday dt = 4
    omega

/-- Witness for C5 at the concrete instant 2020‑11‑04 09:53. -/
theorem c5_formatter_witness :
    (∀ mode, (format_jalali_date mode ⟨2020, 11, 4, 9, 53⟩).2.1 < 7) ∧
    (format_jalali_date CalMode.greg ⟨2020, 11, 4, 9, 53⟩).2.1
      = (pyWeekday ⟨2020, 11, 4, 9, 53⟩ + 2) % 7 ∧
    (format_jalali_date CalMode.jalali ⟨2020, 11, 4, 9, 53⟩).2.1
      = jweekday ⟨2020, 11, 4, 9, 53⟩ ∧
    (format_jalali_date CalMode.greg ⟨2020, 11, 4, 9, 53⟩).2.1
      = (format_jalali_date CalMode.jalali ⟨2020, 11, 4, 9, 53⟩).2.1 ∧
    ((format_jalali_date CalMode.greg ⟨2020, 11, 4, 9, 53⟩).2.1 = 0
      ↔ pyWeekday ⟨2020, 11, 4, 9, 53⟩ = 5) ∧
    ((format_jalali_date CalMode.greg ⟨2020, 11, 4, 9, 53⟩).2.1 = 6
      ↔ pyWeekday ⟨2020, 11, 4, 9, 53⟩ = 4) ∧
    (∀ mode, 1 ≤ (format_jalali_date mode ⟨2020, 11, 4, 9, 53⟩).2.2 ∧
      (format_jalali_date mode ⟨2020, 11, 4, 9, 53⟩).2.2 ≤ 12) :=
  c5_formatter ⟨2020, 11, 4, 9, 53⟩ (by decide) (by decide)

/-- C6 (code divergence, evaluated): a Saturday timestamp (2020‑11‑07)
falls into weekday bucket 0 in Gregorian-fallback mode, yet the label the
report prints for bucket 0 in that mode is "Tue" — the fallback label
list is indexed by `(i + 1) % 7`, which does not align Saturday-first
buckets with the Monday-first name list (index 5, "Sat", would) — while
in Jalali mode bucket 0 correctly carries Saturday's Persian name. -/
theorem c6_label_mismatch :
    (format_jalali_date CalMode.greg ⟨2020, 11, 7, 9, 53⟩).2.1 = 0 ∧
    weekdayLabel CalMode.greg 0 = "Tue" ∧
    weekdayLabel CalMode.greg 0 ≠ "Sat" ∧
    EN_WEEKDAYS.getD 5 "" = "Sat" ∧
    weekdayLabel CalMode.jalali 0 = "شنبه" ∧
    (weekdayLines CalMode.greg initState).length = 7 ∧
    (weekdayLines CalMode.jalali initState).length = 7 := by
  decide

/-- C8: blocked-word detection is a raw substring test: with blocklist
`["badword"]` the message "this is a badword example" drives the
sender's bad-word count from 0 to 1, with no blocklist it stays 0, and a
blocked word embedded inside a longer word still matches. -/
theorem c8_blocklist :
    ((runAnalyzer CalMode.greg ["badword"]
        ["11/4/20, 9:53 AM - Ali: this is a badword example"]).user_stats.map
        (fun p => (p.1, p.2.bad_word))) = [("Ali", 1)] ∧
    ((runAnalyzer CalMode.greg []
        ["11/4/20, 9:53 AM - Ali: this is a badword example"]).user_stats.map
        (fun p => (p.1, p.2.bad_word))) = [("Ali", 0)] ∧
    ((runAnalyzer CalMode.greg ["badword"]
        ["11/4/20, 9:53 AM - Ali: abadwordly"]).user_stats.map
        (fun p => (p.1, p.2.bad_word))) = [("Ali", 1)] ∧
    pyIn "badword" "abadwordly" = true := by
  decide

/-- C2 (counterexample): a transcript with two lines matching the
group-created pattern records the creator of the SECOND line — the
creation record is overwritten, not first-match-wins.  The third
conjunct shows the first line did match the pattern and produced a
creation event of its own. -/
theorem c2_created_cex :
    (runAnalyzer CalMode.greg []
        ["11/4/20, 9:53 AM - Ali created group \"A\"",
         "11/5/20, 9:53 AM - Bob created group \"B\""]).group_info.created_by
      = some "Bob" ∧
    (runAnalyzer CalMode.greg []
        ["11/4/20, 9:53 AM - Ali created group \"A\"",
         "11/5/20, 9:53 AM - Bob created group \"B\""]).group_info.created_by
      ≠ some "Ali" ∧
    createdEvent CalMode.greg "11/4/20, 9:53 AM - Ali created group \"A\""
      = some ("2020/11/04", "Ali", "A") := by
  decide

/-- C1 (counterexample): the payload `": Ali created group "X""` contains
`":"` with an empty trimmed prefix, and the group-created pattern does
match this payload; yet the run records nothing at all for the line —
classification does NOT proceed to the group patterns; only the
histograms (already fed from the timestamp) are touched. -/
theorem c1_classifier_cex :
    pySplit1 ":" ": Ali created group \"X\""
      = some ("", " Ali created group \"X\"") ∧
    (re_created ": Ali created group \"X\"").isSome = true ∧
    (runAnalyzer CalMode.greg []
        ["11/4/20, 9:53 AM - : Ali created group \"X\""]).group_info
      = ⟨none, none, none⟩ ∧
    (runAnalyzer CalMode.greg []
        ["11/4/20, 9:53 AM - : Ali created group \"X\""]).user_stats = [] ∧
    (runAnalyzer CalMode.greg []
        ["11/4/20, 9:53 AM - : Ali created group \"X\""]).group_renames = [] ∧
    (runAnalyzer CalMode.greg []
        ["11/4/20, 9:53 AM - : Ali created group \"X\""]).hour_counts 9 = 1 := by
  decide

/-- C1 (amended): the classifier applies its matchers first-match-wins
and mutually exclusively, with the amendment that a payload containing
`":"` whose trimmed prefix is empty is silently ignored rather than
passed on to the group patterns: (1) lines dropped before
classification leave the state unchanged; (2) ignored lines — including
every payload with `":"` and an empty trimmed prefix — update no user or
group field; (3) a payload with `":"` and a non-empty trimmed prefix is
classified as a user message (even when a group pattern would also
match) and touches no group field; (4) only a payload with no `":"` is
tried against the group-created pattern, which sets the creation record;
(5) otherwise the group-renamed pattern is tried on the entire original
line and appends a rename entry exactly when its embedded timestamp
parses. -/
theorem c1_classifier_order (mode : CalMode) (bw : List String) (st : AState) (raw : String) :
    (classifyAmended raw = none → processLine mode bw st raw = st) ∧
    (classifyAmended raw = some LineClass.ignored →
      (processLine mode bw st raw).user_stats = st.user_stats ∧
      (processLine mode bw st raw).group_info = st.group_info ∧
      (processLine mode bw st raw).group_renames = st.group_renames) ∧
    (∀ s m, classifyAmended raw = some (LineClass.userMsg s m) →
      (∃ dt, userMsgOf raw = some (s, dt)) ∧
      (processLine mode bw st raw).group_info = st.group_info ∧
      (processLine mode bw st raw).group_renames = st.group_renames) ∧
    (∀ c g, classifyAmended raw = some (LineClass.created c g) →
      (∃ lbl, createdEvent mode raw = some (lbl, c, g) ∧
        (processLine mode bw st raw).group_info = ⟨some lbl, some c, some g⟩) ∧
      (processLine mode bw st raw).user_stats = st.user_stats ∧
      (processLine mode bw st raw).group_renames = st.group_renames) ∧
    (∀ t c o n, classifyAmended raw = some (LineClass.renamed t c o n) →
      (processLine mode bw st raw).user_stats = st.user_stats ∧
      (processLine mode bw st raw).group_info = st.group_info ∧
      (processLine mode bw st raw).group_renames = st.group_renames ++
        (match parse_timestamp (pyStrip t) with
         | some dt2 => [((format_jalali_date mode dt2).1, pyStrip c, pyStrip o, pyStrip n)]
         | none => [])) := by
  unfold processLine classifyAmended userMsgOf createdEvent
  cases hsp : pySplit1 " - " raw with
  | none =>
    exact ⟨fun _ => rfl, fun h => by simp at h, fun s m h => by simp at h,
      fun c g h => by simp at h, fun t c o n h => by simp at h⟩
  | some p =>
    obtain ⟨a, b⟩ := p
    dsimp only
    cases hdt : parse_timestamp a with
    | none =>
      exact ⟨fun _ => rfl, fun h => by simp at h, fun s m h => by simp at h,
        fun c g h => by simp at h, fun t c o n h => by simp at h⟩
    | some dt =>
      dsimp only
      cases hc : pySplit1 ":" b with
      | some q =>
        obtain ⟨s0, m0⟩ := q
        dsimp only
        by_cases hs : pyStrip s0 = ""
        · rw [if_pos hs, if_pos hs, if_pos hs]
          exact ⟨fun h => by simp at h, fun _ => ⟨rfl, rfl, rfl⟩, fun s m h => by simp at h,
            fun c g h => by simp at h, fun t c o n h => by simp at h⟩
        · rw [if_neg hs, if_neg hs, if_neg hs]
          refine ⟨fun h => by simp at h, fun h => by simp at h, ?_,
            fun c g h => by simp at h, fun t c o n h => by simp at h⟩
          intro s m h
          simp only [Option.some.injEq, LineClass.userMsg.injEq] at h
          obtain ⟨h1, h2⟩ := h
          refine ⟨⟨dt, by rw [h1]⟩, ?_, ?_⟩
          · dsimp only
            split <;> rfl
          · dsimp only
            split <;> rfl
      | none =>
        dsimp only
        cases hcr : re_created b with
        | some cg =>
          obtain ⟨creator, gname⟩ := cg
          dsimp only
          refine ⟨fun h => by simp at h, fun h => by simp at h, fun s m h => by simp at h,
            ?_, fun t c o n h => by simp at h⟩
          intro c g h
          simp only [Option.some.injEq, LineClass.created.injEq] at h
          obtain ⟨h1, h2⟩ := h
          refine ⟨⟨(format_jalali_date mode dt).1, ?_, ?_⟩, rfl, rfl⟩
          · rw [h1, h2]
          · rw [h1, h2]
        | none =>
          dsimp only
          cases hr : re_group_rename raw with
          | some tcon =>
            obtain ⟨t0, c0, o0, n0⟩ := tcon
            dsimp only
            refine ⟨fun h => by simp at h, fun h => by simp at h, fun s m h => by simp at h,
              fun c g h => by simp at h, ?_⟩
            intro t c o n h
            simp only [Option.some.injEq, LineClass.renamed.injEq] at h
            obtain ⟨h1, h2, h3, h4⟩ := h
            subst h1; subst h2; subst h3; subst h4
            cases hrt : parse_timestamp (pyStrip t0) with
            | some dt2 => exact ⟨rfl, rfl, rfl⟩
            | none => exact ⟨rfl, rfl, by simp⟩
          | none =>
            dsimp only
            exact ⟨fun h => by simp at h, fun _ => ⟨rfl, rfl, rfl⟩, fun s m h => by simp at h,
              fun c g h => by simp at h, fun t c o n h => by simp at h⟩

/-- Witness for C1 (amended) at two concrete lines: an empty-prefix
`":"` payload that is silently ignored, and an ordinary user message. -/
theorem c1_classifier_order_witness :
    ((processLine CalMode.greg [] initState
        "11/4/20, 9:53 AM - : Ali created group \"X\"").user_stats = initState.user_stats ∧
     (processLine CalMode.greg [] initState
        "11/4/20, 9:53 AM - : Ali created group \"X\"").group_info = initState.group_info ∧
     (processLine CalMode.greg [] initState
        "11/4/20, 9:53 AM - : Ali created group \"X\"").group_renames
       = initState.group_renames) ∧
    ((∃ dt, userMsgOf "11/4/20, 9:53 AM - Ali: hi" = some ("Ali", dt)) ∧
     (processLine CalMode.greg [] initState "11/4/20, 9:53 AM - Ali: hi").group_info
       = initState.group_info ∧
     (processLine CalMode.greg [] initState "11/4/20, 9:53 AM - Ali: hi").group_renames
       = initState.group_renames) :=
  ⟨(c1_classifier_order CalMode.greg [] initState
      "11/4/20, 9:53 AM - : Ali created group \"X\"").2.1 (by decide),
   (c1_classifier_order CalMode.greg [] initState
      "11/4/20, 9:53 AM - Ali: hi").2.2.1 "Ali" "hi" (by decide)⟩

end WGA
